import Mathlib

/-!
Verification development for the playlist mutation/migration scripts
(src/server/ytmusic_load.py and src/server/ytmusic_migrate.py).

The Python sources are shallowly embedded below.  Dynamic JSON dicts are
modelled as Lean structures whose `String` fields default to `""` when the
corresponding key is absent; remote calls are modelled by an explicit
oracle holding one response per call index.  Python's `str.lower()` is
modelled by the ASCII `Char.toLower` (the regex class `[^a-z0-9]` is
ASCII-only, so this only affects exotic non-ASCII case foldings that no
claim depends on).
-/

namespace YtMusic

/-- Python's `str.strip()` on a character list: drop whitespace from both
ends. -/
def trimChars (cs : List Char) : List Char :=
  ((cs.dropWhile Char.isWhitespace).reverse.dropWhile Char.isWhitespace).reverse

/-- `safe_str` from both scripts: `value.strip()` for strings, `""` for any
other payload value.  The model takes the string value directly (absent or
non-string dict entries are represented as `""`). -/
def safe_str (s : String) : String := ⟨trimChars s.data⟩

/-- `sep.join(parts)` on strings (kernel-reducible replacement for the
built-in position-based `String.intercalate`). -/
def strIntercalate (sep : String) : List String → String
  | [] => ""
  | [x] => x
  | x :: y :: rest => x ++ sep ++ strIntercalate sep (y :: rest)

/-- `safe_non_negative_int` from both scripts, on an (optional) integer
payload value: a non-negative int passes through, anything else is `None`. -/
def safe_non_negative_int (v : Option Int) : Option Nat :=
  v.bind (fun i => if 0 ≤ i then some i.toNat else none)

/-- Prefix test on character lists (needle, haystack). -/
def startsWithChars : List Char → List Char → Bool
  | [], _ => true
  | _ :: _, [] => false
  | n :: ns, h :: hs => n == h && startsWithChars ns hs

/-- Substring occurrence test on character lists: does `needle` occur
contiguously in the haystack? -/
def containsChars (needle : List Char) : List Char → Bool
  | [] => startsWithChars needle []
  | h :: hs => startsWithChars needle (h :: hs) || containsChars needle hs

/-- Python's substring containment `needle in hay`. -/
def strContains (hay needle : String) : Bool :=
  containsChars needle.data hay.data

/-- The character class kept by the regex `[^a-z0-9]` in `normalize`
(everything else is replaced by a space). -/
def isKept (c : Char) : Bool :=
  ('a' ≤ c && c ≤ 'z') || ('0' ≤ c && c ≤ '9')

/-- `value.lower()` followed by `re.sub(r"[^a-z0-9]+", " ", ...)`.
The regex collapses each run of non-alphanumerics into one space; the model
replaces every such character by a space, which yields the same final string
once `.split()` (which discards empty fields) is applied. -/
def cleanChars (cs : List Char) : List Char :=
  (cs.map Char.toLower).map (fun c => if isKept c then c else ' ')

/-- Python `.split()` on the cleaned character list: split on spaces and
drop the empty fields (the cleaned list contains no other whitespace). -/
def splitWords (cs : List Char) : List (List Char) :=
  (cs.splitOn ' ').filter (· ≠ [])

/-- `normalize` from ytmusic_migrate.py on a character list:
lower-case, replace non-alphanumerics by spaces, then
`" ".join(cleaned.split())`. -/
def normalizeChars (cs : List Char) : List Char :=
  [' '].intercalate (splitWords (cleanChars cs))

/-- `normalize(value)` from ytmusic_migrate.py. -/
def normalize (s : String) : String :=
  ⟨normalizeChars s.data⟩

/-- One remote search result, as consumed by the migration scorer.
`artists` holds the usable name entries of the `"artists"` list;
`artist` is the plain-string `"artist"` fallback field;
`album` is the album name (from a dict's `"name"` or a plain string). -/
structure SearchResult where
  title : String := ""
  artists : List String := []
  artist : String := ""
  album : String := ""
  videoId : String := ""
deriving DecidableEq

/-- `extract_artist_text` from ytmusic_migrate.py: join the usable names of
the `"artists"` list with `", "`, falling back to the `"artist"` field when
no name is usable. -/
def extract_artist_text (r : SearchResult) : String :=
  let names := (r.artists.map safe_str).filter (· ≠ "")
  if names ≠ [] then strIntercalate ", " names else safe_str r.artist

/-- `score_search_result` from ytmusic_migrate.py. -/
def score_search_result (r : SearchResult) (target_title target_artist : String) : Nat :=
  let result_title := normalize (safe_str r.title)
  let result_artists := normalize (extract_artist_text r)
  let title := normalize target_title
  let artist := normalize target_artist
  let title_score : Nat :=
    if title ≠ "" && result_title == title then 8
    else if title ≠ "" && strContains result_title title then 5
    else 0
  let artist_score : Nat :=
    if artist ≠ "" && result_artists == artist then 5
    else if artist ≠ "" && strContains result_artists artist then 3
    else if artist ≠ "" &&
        (artist.data.splitOn ' ').any
          (fun tok => tok ≠ [] && containsChars tok result_artists.data) then 1
    else 0
  let id_score : Nat := if safe_str r.videoId ≠ "" then 2 else 0
  title_score + artist_score + id_score

/-- `artist_match_level` from ytmusic_migrate.py. -/
def artist_match_level (r : SearchResult) (target_artist : String) : Nat :=
  let artist := normalize target_artist
  if artist = "" then 0
  else
    let result_artists := normalize (extract_artist_text r)
    if result_artists = "" then 0
    else if result_artists = artist then 3
    else if strContains result_artists artist then 2
    else if (artist.data.splitOn ' ').any
        (fun tok => tok ≠ [] && containsChars tok result_artists.data) then 1
    else 0

/-- `album_match_level` from ytmusic_migrate.py.  The `album` field of the
model already holds the album name (`""` when the search result carries no
usable album), mirroring the dict/plain-string extraction of the source. -/
def album_match_level (r : SearchResult) (target_album : String) : Nat :=
  let album := normalize target_album
  if album = "" then 0
  else
    let result_album := normalize (safe_str r.album)
    if result_album = "" then 0
    else if result_album = album then 2
    else if strContains result_album album then 1
    else 0

/-- The `total_score` closure inside `pick_best_match`. -/
def total_score (title artist album : String) (item : SearchResult) : Nat :=
  score_search_result item title artist + album_match_level item album * 4

/-- Python's `max(valid_results, key=total_score)`: the first element of
maximal score (later elements replace the current best only when strictly
greater). -/
def maxByFirst (f : SearchResult → Nat) : List SearchResult → Option SearchResult
  | [] => none
  | x :: xs => some (xs.foldl (fun best y => if f best < f y then y else best) x)

/-- `pick_best_match` from ytmusic_migrate.py. -/
def pick_best_match (results : List SearchResult) (title artist : String)
    (album : String := "") (require_artist_match : Bool := true) :
    Option SearchResult :=
  let valid_results := results.filter (fun r => safe_str r.videoId ≠ "")
  if valid_results.isEmpty then none
  else if artist ≠ "" then
    let artist_filtered := valid_results.filter (fun r => 0 < artist_match_level r artist)
    if !artist_filtered.isEmpty then
      maxByFirst (total_score title artist album) artist_filtered
    else if require_artist_match then none
    else maxByFirst (total_score title artist album) valid_results
  else maxByFirst (total_score title artist album) valid_results

/-- One playlist row as read from a snapshot (a track dict); `String`
fields default to `""` when the corresponding key is absent, `artists`
holds the usable `"name"` entries of the `"artists"` list and `album` the
`"name"` of the `"album"` dict. -/
structure Track where
  title : String := ""
  artists : List String := []
  album : String := ""
  videoId : String := ""
  setVideoId : String := ""
deriving DecidableEq

instance : Inhabited Track := ⟨{}⟩

/-- The `before_set_video_ids` set: every non-empty `setVideoId` of the
before-snapshot (membership below is tested with `List.contains`). -/
def beforeTokenSet (tracks : List Track) : List String :=
  (tracks.map (fun t => safe_str t.setVideoId)).filter (· ≠ "")

/-- The reverse scan of the after-snapshot shared by
`handle_insert_video_at_position` (ytmusic_load.py) and the
position-preserving branch of `migrate_songs` (ytmusic_migrate.py).
The list argument is the after-snapshot enumerated and reversed (last row
first); `fb` carries the current fallback row.  Returns
(inserted row, fallback row), each as an optional (token, index) pair. -/
def reconcileScanAux (beforeSet : List String) (vid : String) :
    List (Nat × Track) → Option (String × Nat) →
    Option (String × Nat) × Option (String × Nat)
  | [], fb => (none, fb)
  | (i, t) :: rest, fb =>
    if safe_str t.videoId == vid then
      let tok := safe_str t.setVideoId
      if tok != "" && !(beforeSet.contains tok) then (some (tok, i), fb)
      else
        reconcileScanAux beforeSet vid rest
          (if tok != "" && fb.isNone then some (tok, i) else fb)
    else reconcileScanAux beforeSet vid rest fb

/-- The reconciliation scan over a whole after-snapshot: scan rows from the
last entry to the first. -/
def reconcileScan (beforeSet : List String) (vid : String) (after : List Track) :
    Option (String × Nat) × Option (String × Nat) :=
  reconcileScanAux beforeSet vid after.enum.reverse none

/-- The promoted result: the genuinely inserted row when one was found,
otherwise the best-effort fallback row (`if not inserted_set_video_id and
fallback_set_video_id: ...`). -/
def findInsertedRow (beforeSet : List String) (vid : String) (after : List Track) :
    Option (String × Nat) :=
  let scanned := reconcileScan beforeSet vid after
  scanned.1 <|> scanned.2

/-- Spec-side description of the genuine new row (written from the spec's
words, for comparison with the scan above): the first row of the reverse
scan whose external identifier matches and whose token is non-empty and
absent from the before-set. -/
def specNewRow (beforeSet : List String) (vid : String) (after : List Track) :
    Option (String × Nat) :=
  (after.enum.reverse.find? (fun p =>
      safe_str p.2.videoId == vid &&
      (safe_str p.2.setVideoId != "" &&
        !(beforeSet.contains (safe_str p.2.setVideoId))))).map
    (fun p => (safe_str p.2.setVideoId, p.1))

/-- Outcome of the insert-at-position planning step: either no reorder call
is issued (`stay i`, response `insertedIndex = i, moved = false`) or exactly
one reorder call `moveItem=(movedTok, succTok)` is issued (`move`, response
`insertedIndex = i, moved = true`). -/
inductive InsertOutcome where
  | stay (insertedIndex : Nat)
  | move (movedTok succTok : String) (insertedIndex : Nat)
deriving DecidableEq

/-- The successor-token scan: the first row at or after `start` whose
(stripped) token is non-empty and differs from the inserted token; `""`
when no such row exists. -/
def successor_token (after : List Track) (insertedTok : String) (start : Nat) : String :=
  match (after.drop start).find?
      (fun t => safe_str t.setVideoId != "" && safe_str t.setVideoId != insertedTok) with
  | some t => safe_str t.setVideoId
  | none => ""

/-- The planning tail of `handle_insert_video_at_position`
(ytmusic_load.py, after the inserted row was reconciled), identical to the
repositioning tail of `migrate_songs` (ytmusic_migrate.py): clamp the
requested index, compute the successor slot and token, and decide whether
a reorder call is issued. -/
def plan_insert_move (after : List Track) (insertedTok : String)
    (insertedIndex expectedIndex : Nat) : InsertOutcome :=
  let bounded := min expectedIndex (after.length - 1)
  if insertedIndex = bounded then .stay bounded
  else
    let succIdx := if insertedIndex < bounded then bounded + 1 else bounded
    if after.length ≤ succIdx then .stay (after.length - 1)
    else
      let succTok := successor_token after insertedTok succIdx
      if succTok = "" then .stay (after.length - 1)
      else .move insertedTok succTok bounded

/-- Direction of a relative move. -/
inductive Direction where
  | up
  | down
deriving DecidableEq

/-- Result of `handle_move_playlist_song`'s main loop: the reported fields
plus the list of reorder calls issued (each `moveItem=(a, b)` pair in
order). -/
structure MoveResult where
  moved : Bool
  fromIndex : Nat
  toIndex : Nat
  calls : List (String × String)
deriving DecidableEq

/-- Swap the adjacent rows at positions `i` and `i + 1` of the in-memory
mirror. -/
def swapAdj (l : List Track) (i : Nat) : List Track :=
  (l.set i (l.getD (i + 1) default)).set (i + 1) (l.getD i default)

/-- The per-step loop of `handle_move_playlist_song`, direction `up`:
read the predecessor of the moving row in the mirror, stop early when it
carries no token, otherwise issue `moveItem=(movedTok, predecessorTok)`,
swap the two rows and continue.  Returns the final index and the calls. -/
def moveLoopUp (movedTok : String) :
    Nat → List Track → Nat → Nat × List (String × String)
  | 0, _, idx => (idx, [])
  | fuel + 1, tracks, idx =>
    let predTok := safe_str ((tracks.getD (idx - 1) default).setVideoId)
    if predTok = "" then (idx, [])
    else
      let next := moveLoopUp movedTok fuel (swapAdj tracks (idx - 1)) (idx - 1)
      (next.1, (movedTok, predTok) :: next.2)

/-- The per-step loop of `handle_move_playlist_song`, direction `down`:
read the successor, stop early when it carries no token, otherwise issue
`moveItem=(successorTok, movedTok)` (the neighbor is moved backward past
the target), swap and continue. -/
def moveLoopDown (movedTok : String) :
    Nat → List Track → Nat → Nat × List (String × String)
  | 0, _, idx => (idx, [])
  | fuel + 1, tracks, idx =>
    let succTok := safe_str ((tracks.getD (idx + 1) default).setVideoId)
    if succTok = "" then (idx, [])
    else
      let next := moveLoopDown movedTok fuel (swapAdj tracks idx) (idx + 1)
      (next.1, (succTok, movedTok) :: next.2)

/-- The step-planning core of `handle_move_playlist_song` (ytmusic_load.py,
after the target row was located at `currentIndex` with token `movedTok`):
clamp the step count to the available headroom, run the per-step loop, and
report `fromIndex`, `toIndex` and `moved`. -/
def movePlanCore (tracks : List Track) (currentIndex : Nat) (movedTok : String)
    (dir : Direction) (positions : Nat) : MoveResult :=
  let steps := match dir with
    | .up => min positions currentIndex
    | .down => min positions (tracks.length - 1 - currentIndex)
  if steps = 0 then ⟨false, currentIndex, currentIndex, []⟩
  else
    let looped := match dir with
      | .up => moveLoopUp movedTok steps tracks currentIndex
      | .down => moveLoopDown movedTok steps tracks currentIndex
    ⟨looped.1 != currentIndex, currentIndex, looped.1, looped.2⟩

/-- The `"tracks"` field of a playlist payload: missing-or-not-a-list, or a
proper list of track dicts. -/
inductive TracksField where
  | notList
  | list (tracks : List Track)
deriving DecidableEq

/-- A `get_playlist` result payload: either not a dict at all, or a dict
with its `"tracks"` field. -/
inductive SnapshotPayload where
  | notDict
  | dict (tracks : TracksField)
deriving DecidableEq

/-- `result.get("tracks") if isinstance(result, dict) else []`: a non-dict
payload yields the literal empty list. -/
def snapshotTracks : SnapshotPayload → TracksField
  | .notDict => .list []
  | .dict t => t

/-- A song reference as accepted by `normalize_playlist_song_ref`. -/
structure SongRef where
  setVideoId : String := ""
  videoId : String := ""
deriving DecidableEq

/-- `normalize_playlist_song_ref` from ytmusic_load.py (on a dict payload):
strip both fields and reject when both are empty. -/
def normalize_playlist_song_ref (r : SongRef) : Option SongRef :=
  let s := safe_str r.setVideoId
  let v := safe_str r.videoId
  if s = "" && v = "" then none else some ⟨s, v⟩

/-- `locate_playlist_song_index` from ytmusic_load.py: first match by
position token across the whole list; failing that, match by external
identifier among rows that themselves carry a non-empty token.  Python
returns `(-1, "")` on failure, modelled as `none`. -/
def locate_playlist_song_index (tracks : List Track) (song_ref : SongRef) :
    Option (Nat × String) :=
  let target_set := safe_str song_ref.setVideoId
  let byToken :=
    if target_set ≠ "" then
      (tracks.enum.find? (fun p => safe_str p.2.setVideoId == target_set)).map
        (fun p => (p.1, safe_str p.2.setVideoId))
    else none
  match byToken with
  | some hit => some hit
  | none =>
    let target_vid := safe_str song_ref.videoId
    if target_vid ≠ "" then
      (tracks.enum.find? (fun p =>
          safe_str p.2.videoId == target_vid && safe_str p.2.setVideoId != "")).map
        (fun p => (p.1, safe_str p.2.setVideoId))
    else none

/-- A structured error response (`emit_error` payload). -/
structure ErrInfo where
  error : String
  code : String
  status : Nat
deriving DecidableEq

/-- `handle_move_playlist_song` from ytmusic_load.py, from the point where
the snapshot has been read (input validation and transport failures are
outside this pure model): fewer than two rows (or a malformed `"tracks"`
field) is a successful no-op; an unlocatable row is the
`playlist_song_not_found` error; otherwise the step-planning core runs. -/
def handle_move_playlist_song (snapshot : SnapshotPayload) (song_ref : SongRef)
    (dir : Direction) (positions : Nat) : Except ErrInfo MoveResult :=
  match snapshotTracks snapshot with
  | .notList => .ok ⟨false, 0, 0, []⟩
  | .list tracks =>
    if tracks.length < 2 then .ok ⟨false, 0, 0, []⟩
    else
      match locate_playlist_song_index tracks song_ref with
      | none => .error ⟨"Could not find selected song in playlist.",
          "playlist_song_not_found", 404⟩
      | some hit => .ok (movePlanCore tracks hit.1 hit.2 dir positions)

/-- One entry of `songDetails` in the `playlistSongs` response. -/
structure SongDetail where
  title : String
  artist : String
  album : String
  videoId : String
  setVideoId : String
deriving DecidableEq

/-- `extract_artist_text` from ytmusic_load.py (the load variant accepts
only dict entries and has no `"artist"` fallback). -/
def load_extract_artist_text (t : Track) : String :=
  strIntercalate ", " ((t.artists.map safe_str).filter (· ≠ ""))

/-- `build_song_detail` from ytmusic_load.py: rows without a title are
dropped. -/
def build_song_detail (t : Track) : Option SongDetail :=
  let title := safe_str t.title
  if title = "" then none
  else some ⟨title, load_extract_artist_text t, safe_str t.album,
    safe_str t.videoId, safe_str t.setVideoId⟩

/-- The `playlistSongs` success response body. -/
structure PlaylistSongsResponse where
  songs : List String
  songDetails : List SongDetail
deriving DecidableEq

/-- `handle_playlist_songs` from ytmusic_load.py, from the point where the
remote call returned a payload (transport failures are outside this pure
model).  A malformed or missing `"tracks"` field produces a successful
response with no songs; the function has no error path for it. -/
def handle_playlist_songs (result : SnapshotPayload) :
    Except ErrInfo PlaylistSongsResponse :=
  let song_details :=
    match snapshotTracks result with
    | .notList => []
    | .list tracks => tracks.filterMap build_song_detail
  .ok ⟨song_details.map (fun d =>
      if d.artist ≠ "" then d.artist ++ " - " ++ d.title else d.title),
    song_details⟩

/-- The remote collaborator for `migrate_songs`, modelled as one response
per call: every remote call consumes the current call counter, so a run is
a deterministic function of the oracle.  `Except.error` models a raised
exception. -/
structure Oracle where
  search : Nat → String → String → Except String (List SearchResult)
  addPlaylistItems : Nat → List String → Except String Unit
  getPlaylist : Nat → Except String SnapshotPayload
  editPlaylist : Nat → String → String → Except String Unit

/-- One input song of the migration payload: a non-dict array element, or a
dict with its (possibly absent) fields.  `expectedIndex` carries the raw
integer payload value. -/
inductive SongInput where
  | notObject
  | obj (songKey title artist album : String) (expectedIndex : Option Int)
deriving DecidableEq

/-- One queued (resolved) migration, as stored in `pending_migrations`. -/
structure PendingSong where
  songKey : String
  title : String
  artist : String
  album : String
  expectedIndex : Option Nat
  videoId : String
  matchedTitle : String
  matchedArtists : String
deriving DecidableEq

/-- One entry of the `failed` array.  The source's not-an-object entry
carries only `songKey` and `error`; the model uses `""` for the remaining
fields there. -/
structure FailedEntry where
  songKey : String
  title : String
  artist : String
  album : String
  error : String
deriving DecidableEq

/-- Dedup-merge of one search call's results into the accumulator
(`if not video_id or video_id in seen_video_ids: continue`). -/
def mergeVariant (seen : List String) (acc : List SearchResult)
    (variant_results : List SearchResult) : List String × List SearchResult :=
  variant_results.foldl
    (fun p r =>
      let vid := safe_str r.videoId
      if vid = "" || p.1.contains vid then p
      else (p.1 ++ [vid], p.2 ++ [r]))
    (seen, acc)

/-- The primary (`"songs"`-filter) search loop over the query variants: an
exception fails the whole song. -/
def searchSongsMerged (o : Oracle) : List String → Nat → List String →
    List SearchResult → Except String (List SearchResult) × Nat
  | [], k, _, acc => (.ok acc, k)
  | q :: rest, k, seen, acc =>
    match o.search k q "songs" with
    | .error e => (.error e, k + 1)
    | .ok variant_results =>
      let merged := mergeVariant seen acc variant_results
      searchSongsMerged o rest (k + 1) merged.1 merged.2

/-- The fallback (`"videos"`-filter) search loop: an exception stops the
loop but keeps the results accumulated so far (the source only logs it). -/
def searchVideosMerged (o : Oracle) : List String → Nat → List String →
    List SearchResult → List SearchResult × Nat
  | [], k, _, acc => (acc, k)
  | q :: rest, k, seen, acc =>
    match o.search k q "videos" with
    | .error _ => (acc, k + 1)
    | .ok variant_results =>
      let merged := mergeVariant seen acc variant_results
      searchVideosMerged o rest (k + 1) merged.1 merged.2

/-- Outcome of resolving one input song: a per-song failure entry or a
queued pending migration. -/
inductive SongOutcome where
  | failedOut (f : FailedEntry)
  | pendingOut (p : PendingSong)
deriving DecidableEq

/-- The per-song resolution step of `migrate_songs` (validation, search,
match selection, queueing), returning the outcome and the advanced call
counter. -/
def resolve_song (o : Oracle) (index : Nat) (song : SongInput) (k : Nat) :
    SongOutcome × Nat :=
  match song with
  | .notObject =>
    (.failedOut ⟨s!"song-{index}", "", "", "", "Song payload must be an object."⟩, k)
  | .obj rawKey rawTitle rawArtist rawAlbum rawExpected =>
    let song_key := if safe_str rawKey ≠ "" then safe_str rawKey else s!"song-{index}"
    let title := safe_str rawTitle
    let artist := safe_str rawArtist
    let album := safe_str rawAlbum
    if title = "" then
      (.failedOut ⟨song_key, title, artist, album, "Song title is required."⟩, k)
    else
      let query := safe_str (artist ++ " " ++ title)
      let queries := if album ≠ "" then [query, safe_str (artist ++ " " ++ title ++ " " ++ album)]
        else [query]
      match searchSongsMerged o queries k [] [] with
      | (.error e, k1) =>
        (.failedOut ⟨song_key, title, artist, album, "Search failed: " ++ e⟩, k1)
      | (.ok merged_results, k1) =>
        let picked :=
          match pick_best_match merged_results title artist album true with
          | some bm => (some bm, k1)
          | none =>
            let videos := searchVideosMerged o queries k1 [] []
            (pick_best_match videos.1 title artist album false, videos.2)
        match picked.1 with
        | none =>
          (.failedOut ⟨song_key, title, artist, album,
            "No matching song found on YouTube Music."⟩, picked.2)
        | some best_match =>
          let video_id := safe_str best_match.videoId
          if video_id = "" then
            (.failedOut ⟨song_key, title, artist, album,
              "Search result did not include a videoId."⟩, picked.2)
          else
            (.pendingOut ⟨song_key, title, artist, album,
              safe_non_negative_int rawExpected, video_id,
              safe_str best_match.title, extract_artist_text best_match⟩, picked.2)

/-- The resolution loop over all input songs, preserving both orders. -/
def resolve_all (o : Oracle) : List SongInput → Nat → Nat →
    (List PendingSong × List FailedEntry) × Nat
  | [], _, k => (([], []), k)
  | song :: rest, index, k =>
    let this_song := resolve_song o index song k
    let tail := resolve_all o rest (index + 1) this_song.2
    match this_song.1 with
    | .pendingOut p => ((p :: tail.1.1, tail.1.2), tail.2)
    | .failedOut f => ((tail.1.1, f :: tail.1.2), tail.2)

/-- The polling loop of the best-effort repositioning step: up to 5
`get_playlist` attempts; an empty (or malformed) snapshot retries; a found
candidate stops the loop.  Returns the last after-snapshot together with
the promoted (inserted-or-fallback) row; an exception propagates to the
surrounding best-effort handler. -/
def pollAfterTracks (o : Oracle) (beforeSet : List String) (vid : String) :
    Nat → Nat → List Track → Except String (List Track × Option (String × Nat)) × Nat
  | 0, k, last => (.ok (last, none), k)
  | attempts + 1, k, _ =>
    match o.getPlaylist k with
    | .error e => (.error e, k + 1)
    | .ok payload =>
      let after_tracks := match snapshotTracks payload with
        | .notList => []
        | .list ts => ts
      if after_tracks.isEmpty then
        pollAfterTracks o beforeSet vid attempts (k + 1) after_tracks
      else
        let scanned := reconcileScan beforeSet vid after_tracks
        match scanned.1 <|> scanned.2 with
        | some hit => (.ok (after_tracks, some hit), k + 1)
        | none => pollAfterTracks o beforeSet vid attempts (k + 1) after_tracks

/-- The best-effort repositioning step after a successful single append
(position-preserving mode).  Every failure path is swallowed (`continue`),
so the step only advances the call counter and never changes the
migrated/failed outcome. -/
def reposition_song (o : Oracle) (beforeSet : List String) (vid : String)
    (expected_index : Nat) (k : Nat) : Nat :=
  match pollAfterTracks o beforeSet vid 5 k [] with
  | (.error _, k1) => k1
  | (.ok (after_tracks, promoted), k1) =>
    if after_tracks.isEmpty then k1
    else
      match promoted with
      | none => k1
      | some (inserted_tok, inserted_index) =>
        match plan_insert_move after_tracks inserted_tok inserted_index expected_index with
        | .stay _ => k1
        | .move a b _ =>
          match o.editPlaylist k1 a b with
          | _ => k1 + 1

/-- One iteration of the position-preserving append loop: read the before
snapshot (exceptions yield an empty token set), append the single video
(an exception turns the song into a failed entry), then reposition
best-effort.  Returns `none` when the song counts as migrated. -/
def preserve_one (o : Oracle) (s : PendingSong) (k : Nat) :
    Option FailedEntry × Nat :=
  let before :=
    match o.getPlaylist k with
    | .error _ => (([] : List String), k + 1)
    | .ok payload =>
      match snapshotTracks payload with
      | .notList => ([], k + 1)
      | .list ts => (beforeTokenSet ts, k + 1)
  match o.addPlaylistItems before.2 [s.videoId] with
  | .error e =>
    (some ⟨s.songKey, s.title, s.artist, s.album,
      "Failed to add song to playlist: " ++ e⟩, before.2 + 1)
  | .ok _ =>
    match safe_non_negative_int (s.expectedIndex.map (Int.ofNat)) with
    | none => (none, before.2 + 1)
    | some expected_index =>
      (none, reposition_song o before.1 s.videoId expected_index (before.2 + 1))

/-- The position-preserving append loop over all pending songs. -/
def preserve_all (o : Oracle) : List PendingSong → Nat →
    (List PendingSong × List FailedEntry) × Nat
  | [], k => (([], []), k)
  | s :: rest, k =>
    let this_song := preserve_one o s k
    let tail := preserve_all o rest this_song.2
    match this_song.1 with
    | none => ((s :: tail.1.1, tail.1.2), tail.2)
    | some f => ((tail.1.1, f :: tail.1.2), tail.2)

/-- The append-only bulk phase: one `add_playlist_items` call; on success
every pending song is migrated, on exception every pending song becomes a
failed entry and the migrated list is emptied. -/
def append_only_phase (o : Oracle) (pending : List PendingSong) (k : Nat) :
    (List PendingSong × List FailedEntry) × Nat :=
  match o.addPlaylistItems k (pending.map (·.videoId)) with
  | .ok _ => ((pending, []), k + 1)
  | .error e =>
    (([], pending.map (fun s => ⟨s.songKey, s.title, s.artist, s.album,
      "Failed to add songs to playlist: " ++ e⟩)), k + 1)

/-- The aggregated migration response (the source always reports
`ok: true` at this level; `migrated` and `failed` are its two arrays). -/
structure MigrateResult where
  migrated : List PendingSong
  failed : List FailedEntry
deriving DecidableEq

/-- `migrate_songs` from ytmusic_migrate.py, from the point where the
payload has been validated (auth handling, `playlistId`/`songs` validation
and debug traces are outside this pure model): resolve every input song,
then add the resolved ones in the requested mode. -/
def migrate_songs (o : Oracle) (songs : List SongInput) (preservePosition : Bool) :
    MigrateResult :=
  let resolved := resolve_all o songs 0 0
  let pending := resolved.1.1
  let phase2 :=
    if pending.isEmpty then (([], []), resolved.2)
    else if preservePosition then preserve_all o pending resolved.2
    else append_only_phase o pending resolved.2
  ⟨phase2.1.1, resolved.1.2 ++ phase2.1.2⟩

/-! ## Lemmas about the normalizer (for claim C6) -/

/-- A kept (lowercase-alphanumeric) character is a fixed point of
`Char.toLower`. -/
theorem toLower_fix (c : Char) (h : isKept c = true) : c.toLower = c := by
  simp [isKept, Char.le_def, UInt32.le_def, BitVec.le_def] at h
  show (if c.toNat ≥ 65 ∧ c.toNat ≤ 90 then Char.ofNat (c.toNat + 32) else c) = c
  rw [if_neg]
  simp only [Char.toNat, UInt32.toNat]
  omega

/-- Characters of a `splitOnP` chunk come from the original list and fail
the splitting predicate. -/
theorem splitOnP_mem_chars {p : Char → Bool} :
    ∀ {cs w : List Char}, w ∈ cs.splitOnP p → ∀ {x : Char}, x ∈ w → x ∈ cs ∧ p x = false := by
  intro cs
  induction cs with
  | nil =>
    intro w hw x hx
    simp only [List.splitOnP_nil, List.mem_singleton] at hw
    subst hw
    simp at hx
  | cons c cs ih =>
    intro w hw x hx
    rw [List.splitOnP_cons] at hw
    by_cases hpc : p c
    · rw [if_pos hpc] at hw
      rcases List.mem_cons.mp hw with h1 | h2
      · subst h1; simp at hx
      · have h3 := ih h2 hx
        exact ⟨List.mem_cons_of_mem _ h3.1, h3.2⟩
    · rw [if_neg hpc] at hw
      rcases hh : cs.splitOnP p with _ | ⟨hd, tl⟩
      · exact absurd hh (List.splitOnP_ne_nil _ _)
      · rw [hh] at hw
        simp only [List.modifyHead] at hw
        rcases List.mem_cons.mp hw with h1 | h2
        · subst h1
          rcases List.mem_cons.mp hx with rfl | hxh
          · exact ⟨List.mem_cons_self _ _, by simpa using hpc⟩
          · have hhd : hd ∈ cs.splitOnP p := by rw [hh]; exact List.mem_cons_self _ _
            have h3 := ih hhd hxh
            exact ⟨List.mem_cons_of_mem _ h3.1, h3.2⟩
        · have hwt : w ∈ cs.splitOnP p := by rw [hh]; exact List.mem_cons_of_mem _ h2
          have h3 := ih hwt hx
          exact ⟨List.mem_cons_of_mem _ h3.1, h3.2⟩

/-- Words produced by `splitWords` are non-empty and consist of non-space
characters of the input. -/
theorem splitWords_mem {cs w : List Char} (hw : w ∈ splitWords cs) :
    w ≠ [] ∧ ∀ x ∈ w, x ∈ cs ∧ x ≠ ' ' := by
  unfold splitWords at hw
  have h1 := List.mem_filter.mp hw
  refine ⟨by simpa using h1.2, ?_⟩
  intro x hx
  have h2 := splitOnP_mem_chars (p := (· == ' ')) (by simpa [List.splitOn] using h1.1) hx
  exact ⟨h2.1, by simpa using h2.2⟩

/-- Every character of a cleaned list is kept or is a space. -/
theorem mem_cleanChars {cs : List Char} {c : Char} (h : c ∈ cleanChars cs) :
    isKept c = true ∨ c = ' ' := by
  unfold cleanChars at h
  rcases List.mem_map.mp h with ⟨d, _, rfl⟩
  by_cases hk : isKept d
  · left; simp [hk]
  · right; simp [hk]

/-- Cleaning fixes a list whose characters are all kept or spaces. -/
theorem cleanChars_fixed : ∀ {cs : List Char},
    (∀ c ∈ cs, isKept c = true ∨ c = ' ') → cleanChars cs = cs := by
  intro cs
  induction cs with
  | nil => intro _; rfl
  | cons c cs ih =>
    intro h
    have hc := h c (List.mem_cons_self _ _)
    have ih2 := ih (fun x hx => h x (List.mem_cons_of_mem _ hx))
    unfold cleanChars at ih2 ⊢
    simp only [List.map_cons]
    have hhead : (if isKept c.toLower = true then c.toLower else ' ') = c := by
      rcases hc with hk | hsp
      · rw [toLower_fix c hk, if_pos hk]
      · subst hsp; rfl
    rw [hhead, ih2]

theorem intercalate_space_cons_cons (w1 w2 : List Char) (t : List (List Char)) :
    [' '].intercalate (w1 :: w2 :: t) = w1 ++ ' ' :: [' '].intercalate (w2 :: t) := by
  simp [List.intercalate, List.intersperse]

/-- Characters of a space-intercalation are spaces or characters of some
word. -/
theorem mem_intercalate_space :
    ∀ (ws : List (List Char)) (c : Char), c ∈ [' '].intercalate ws →
      c = ' ' ∨ ∃ w ∈ ws, c ∈ w
  | [], c, h => by simp [List.intercalate, List.intersperse] at h
  | [w], c, h => by
    right
    exact ⟨w, List.mem_singleton.mpr rfl, by simpa [List.intercalate, List.intersperse] using h⟩
  | w1 :: w2 :: t, c, h => by
    rw [intercalate_space_cons_cons] at h
    rcases List.mem_append.mp h with h1 | h2
    · right; exact ⟨w1, List.mem_cons_self _ _, h1⟩
    · rcases List.mem_cons.mp h2 with rfl | h3
      · left; rfl
      · rcases mem_intercalate_space (w2 :: t) c h3 with h4 | ⟨w, hw, hcw⟩
        · left; exact h4
        · right; exact ⟨w, List.mem_cons_of_mem _ hw, hcw⟩

/-- Splitting a space-intercalation of non-empty space-free words recovers
the words. -/
theorem splitWords_intercalate {ws : List (List Char)}
    (h : ∀ w ∈ ws, w ≠ [] ∧ ∀ x ∈ w, x ≠ ' ') :
    splitWords ([' '].intercalate ws) = ws := by
  rcases ws with _ | ⟨w, t⟩
  · simp [splitWords, List.intercalate, List.intersperse]
  · have hx : ∀ l ∈ (w :: t), ' ' ∉ l := fun l hl hsp => (h l hl).2 ' ' hsp rfl
    have hr := List.splitOn_intercalate (w :: t) ' ' hx (by simp)
    unfold splitWords
    rw [hr]
    refine List.filter_eq_self.mpr ?_
    intro a ha
    simpa using (h a ha).1

/-- The character-level normalizer is idempotent. -/
theorem normalizeChars_idem (cs : List Char) :
    normalizeChars (normalizeChars cs) = normalizeChars cs := by
  unfold normalizeChars
  have hmemw : ∀ w ∈ splitWords (cleanChars cs), w ≠ [] ∧ ∀ x ∈ w, x ≠ ' ' := by
    intro w hw
    have h1 := splitWords_mem hw
    exact ⟨h1.1, fun x hx => (h1.2 x hx).2⟩
  have hclean :
      cleanChars ([' '].intercalate (splitWords (cleanChars cs))) =
        [' '].intercalate (splitWords (cleanChars cs)) := by
    apply cleanChars_fixed
    intro c hc
    rcases mem_intercalate_space _ c hc with h1 | ⟨w, hw, hcw⟩
    · right; exact h1
    · left
      have h2 := splitWords_mem hw
      have h3 := h2.2 c hcw
      rcases mem_cleanChars h3.1 with hk | hsp
      · exact hk
      · exact absurd hsp h3.2
  rw [hclean, splitWords_intercalate hmemw]

/-- `normalize` is idempotent. -/
theorem normalize_idem (s : String) : normalize (normalize s) = normalize s :=
  congrArg String.mk (normalizeChars_idem s.data)

/-! ## Lemmas about the reconciliation scan (for claim C1) -/

/-- The inserted-row component of the scan ignores the fallback accumulator
and is exactly the first row of the list satisfying the freshness
predicate. -/
theorem reconcileScanAux_fst (B : List String) (vid : String) :
    ∀ (l : List (Nat × Track)) (fb : Option (String × Nat)),
      (reconcileScanAux B vid l fb).1 =
        (l.find? (fun p =>
            safe_str p.2.videoId == vid &&
            (safe_str p.2.setVideoId != "" &&
              !(B.contains (safe_str p.2.setVideoId))))).map
          (fun p => (safe_str p.2.setVideoId, p.1)) := by
  intro l
  induction l with
  | nil => intro fb; rfl
  | cons pt rest ih =>
    intro fb
    obtain ⟨i, t⟩ := pt
    cases h1 : (safe_str t.videoId == vid) with
    | true =>
      cases h2 : (safe_str t.setVideoId != "" && !(B.contains (safe_str t.setVideoId))) with
      | true =>
        simp only [reconcileScanAux]
        rw [if_pos h1, if_pos h2, List.find?_cons_of_pos]
        · rfl
        · show (_ && _) = true
          rw [h1, h2]
          rfl
      | false =>
        simp only [reconcileScanAux]
        rw [if_pos h1, if_neg (by rw [h2]; exact Bool.false_ne_true),
          List.find?_cons_of_neg, ih]
        show ¬(_ && _) = true
        rw [h1, h2]
        exact Bool.false_ne_true
    | false =>
      simp only [reconcileScanAux]
      rw [if_neg (by rw [h1]; exact Bool.false_ne_true), List.find?_cons_of_neg, ih]
      show ¬(_ && _) = true
      rw [h1]
      exact Bool.false_ne_true

end YtMusic

namespace YtMusic

/-- The concrete oracle of the C9 batch example: every search returns one
matching candidate for song A, the bulk append succeeds. -/
def exOracleC9 : Oracle where
  search := fun _ _ _ => .ok [{ title := "Song A", artists := ["Artist"], videoId := "vidA" }]
  addPlaylistItems := fun _ _ => .ok ()
  getPlaylist := fun _ => .ok (.dict (.list []))
  editPlaylist := fun _ _ _ => .ok ()

end YtMusic

namespace YtMusic

/-! ## Lemmas about the relative-move loop (for claim C3) -/

theorem swapAdj_length (l : List Track) (i : Nat) : (swapAdj l i).length = l.length := by
  simp [swapAdj]

/-- Swapping the adjacent rows at `i` and `i + 1` leaves every other
position unchanged. -/
theorem swapAdj_getD_ne {l : List Track} {i j : Nat} (h1 : j ≠ i) (h2 : j ≠ i + 1) :
    (swapAdj l i).getD j default = l.getD j default := by
  unfold swapAdj
  rw [List.getD_eq_getElem?_getD, List.getD_eq_getElem?_getD,
    List.getElem?_set_ne (by omega), List.getElem?_set_ne (by omega),
    List.getD_eq_getElem?_getD]

/-- The up loop under tokens on exactly the traversed predecessors: the
loop reads the original rows at indices `idx - 1` down to `idx - fuel`
(each swap only touches positions at or above the new index), so when
those rows carry non-empty tokens it performs all `fuel` steps. -/
theorem moveLoopUp_spec (tok : String) :
    ∀ (fuel : Nat) (tracks : List Track) (idx : Nat),
      fuel ≤ idx → idx < tracks.length →
      (∀ j, idx - fuel ≤ j → j < idx →
        safe_str ((tracks.getD j default).setVideoId) ≠ "") →
      (moveLoopUp tok fuel tracks idx).1 = idx - fuel ∧
      (moveLoopUp tok fuel tracks idx).2.length = fuel := by
  intro fuel
  induction fuel with
  | zero => intro tracks idx _ _ _; exact ⟨rfl, rfl⟩
  | succ n ih =>
    intro tracks idx hle hlt htok
    have hne : safe_str ((tracks.getD (idx - 1) default).setVideoId) ≠ "" :=
      htok (idx - 1) (by omega) (by omega)
    have htok2 : ∀ j, (idx - 1) - n ≤ j → j < idx - 1 →
        safe_str (((swapAdj tracks (idx - 1)).getD j default).setVideoId) ≠ "" := by
      intro j hj1 hj2
      rw [swapAdj_getD_ne (by omega) (by omega)]
      exact htok j (by omega) (by omega)
    have hrec := ih (swapAdj tracks (idx - 1)) (idx - 1) (by omega)
      (by rw [swapAdj_length]; omega) htok2
    simp only [moveLoopUp]
    rw [if_neg hne]
    refine ⟨?_, ?_⟩
    · simp only []
      rw [hrec.1]
      omega
    · simp only [List.length_cons]
      rw [hrec.2]

/-- The down loop under tokens on exactly the traversed successors: the
loop reads the original rows at indices `idx + 1` up to `idx + fuel`
(each swap only touches positions at or below the new index), so when
those rows carry non-empty tokens it performs all `fuel` steps. -/
theorem moveLoopDown_spec (tok : String) :
    ∀ (fuel : Nat) (tracks : List Track) (idx : Nat),
      idx + fuel < tracks.length →
      (∀ j, idx < j → j ≤ idx + fuel →
        safe_str ((tracks.getD j default).setVideoId) ≠ "") →
      (moveLoopDown tok fuel tracks idx).1 = idx + fuel ∧
      (moveLoopDown tok fuel tracks idx).2.length = fuel := by
  intro fuel
  induction fuel with
  | zero => intro tracks idx _ _; exact ⟨rfl, rfl⟩
  | succ n ih =>
    intro tracks idx hlt htok
    have hne : safe_str ((tracks.getD (idx + 1) default).setVideoId) ≠ "" :=
      htok (idx + 1) (by omega) (by omega)
    have htok2 : ∀ j, idx + 1 < j → j ≤ idx + 1 + n →
        safe_str (((swapAdj tracks idx).getD j default).setVideoId) ≠ "" := by
      intro j hj1 hj2
      rw [swapAdj_getD_ne (by omega) (by omega)]
      exact htok j (by omega) (by omega)
    have hrec := ih (swapAdj tracks idx) (idx + 1)
      (by rw [swapAdj_length]; omega) htok2
    simp only [moveLoopDown]
    rw [if_neg hne]
    refine ⟨?_, ?_⟩
    · simp only []
      rw [hrec.1]
      omega
    · simp only [List.length_cons]
      rw [hrec.2]

theorem moveLoopUp_le (tok : String) :
    ∀ (fuel : Nat) (tracks : List Track) (idx : Nat),
      (moveLoopUp tok fuel tracks idx).1 ≤ idx := by
  intro fuel
  induction fuel with
  | zero => intro tracks idx; exact Nat.le_refl _
  | succ n ih =>
    intro tracks idx
    simp only [moveLoopUp]
    by_cases hp : safe_str ((tracks.getD (idx - 1) default).setVideoId) = ""
    · rw [if_pos hp]
    · rw [if_neg hp]
      have := ih (swapAdj tracks (idx - 1)) (idx - 1)
      simp only []
      omega

theorem moveLoopDown_le (tok : String) :
    ∀ (fuel : Nat) (tracks : List Track) (idx : Nat),
      (moveLoopDown tok fuel tracks idx).1 ≤ idx + fuel := by
  intro fuel
  induction fuel with
  | zero => intro tracks idx; exact Nat.le_refl _
  | succ n ih =>
    intro tracks idx
    simp only [moveLoopDown]
    by_cases hp : safe_str ((tracks.getD (idx + 1) default).setVideoId) = ""
    · rw [if_pos hp]
      omega
    · rw [if_neg hp]
      have := ih (swapAdj tracks idx) (idx + 1)
      simp only []
      omega

end YtMusic

namespace YtMusic

/-! ## Claim theorems -/

/-- C1: the reconciler scans the after-snapshot from the last entry to the
first and identifies the genuine new row as the first row so encountered
whose external identifier equals the appended one and whose position token
is non-empty and absent from the before-set; concretely, with before
tokens t1,t2,t3 and after-snapshot rows t1..t4 where the t4 row carries
the appended identifier, it selects the t4 row at index 3 even though the
t1 row shares the same external identifier. -/
theorem c1_reconciler_new_row :
    (∀ (beforeSet : List String) (vid : String) (after : List Track),
      (reconcileScan beforeSet vid after).1 = specNewRow beforeSet vid after) ∧
    findInsertedRow ["t1", "t2", "t3"] "vX"
      [{ videoId := "vX", setVideoId := "t1" }, { videoId := "a", setVideoId := "t2" },
       { videoId := "b", setVideoId := "t3" }, { videoId := "vX", setVideoId := "t4" }] =
      some ("t4", 3) := by
  constructor
  · intro B vid after
    unfold reconcileScan specNewRow
    exact reconcileScanAux_fst B vid after.enum.reverse none
  · decide

/-- C2: insert-at-position clamps the target to min(expectedIndex, N-1);
when the inserted row already sits there no reorder call is issued
(outcome `stay`), otherwise the successor slot is target+1 when the
inserted row sits before the target and target otherwise, and when the
successor-token scan from that slot yields a token the planner issues
exactly one reorder call against it, reporting the clamped index
(outcome `move`). -/
theorem c2_insert_planning (after : List Track) (tok : String) (i e : Nat)
    (hi : i < after.length) :
    (i = min e (after.length - 1) →
      plan_insert_move after tok i e = .stay (min e (after.length - 1))) ∧
    (i ≠ min e (after.length - 1) →
      ∀ s : String,
        s = successor_token after tok
          (if i < min e (after.length - 1) then min e (after.length - 1) + 1
            else min e (after.length - 1)) →
        s ≠ "" →
        (if i < min e (after.length - 1) then min e (after.length - 1) + 1
          else min e (after.length - 1)) < after.length →
        plan_insert_move after tok i e = .move tok s (min e (after.length - 1))) := by
  constructor
  · intro h
    unfold plan_insert_move
    rw [if_pos h]
  · intro hne s hs hs0 hlt
    unfold plan_insert_move
    rw [if_neg hne, if_neg (Nat.not_le.mpr hlt), ← hs, if_neg hs0]

/-- Witness for C2 at the spec's concrete example: after-snapshot length 4,
inserted row at index 3 with token d, requested index 1: one reorder call
is issued against the token b at index 1 and the reported index is 1. -/
theorem c2_insert_planning_witness :
    plan_insert_move
      [{ setVideoId := "a" }, { setVideoId := "b" }, { setVideoId := "c" },
       { videoId := "v", setVideoId := "d" }] "d" 3 1 = .move "d" "b" 1 := by
  have h := c2_insert_planning
    [{ setVideoId := "a" }, { setVideoId := "b" }, { setVideoId := "c" },
     { videoId := "v", setVideoId := "d" }] "d" 3 1 (by decide)
  exact h.2 (by decide) "b" (by decide) (by decide) (by decide)

end YtMusic

namespace YtMusic

/-- C3: for a snapshot of at least two rows containing the target at index
c and a positive step count p, the relative move reports fromIndex = c and
a toIndex within [0, N-1], reports moved exactly when the index changed,
and when every traversed neighbor (the rows at indices c-1 down to
c-min(p,c) moving up, c+1 up to c+min(p,N-1-c) moving down) carries a
non-empty token it performs exactly min(p, c) reorder calls moving up and
min(p, N-1-c) moving down, landing on the corresponding index. -/
theorem c3_relative_move (tracks : List Track) (tok : String) (c p : Nat)
    (dir : Direction) (hN : 2 ≤ tracks.length) (hc : c < tracks.length) (hp : 1 ≤ p) :
    (movePlanCore tracks c tok dir p).fromIndex = c ∧
    (movePlanCore tracks c tok dir p).toIndex ≤ tracks.length - 1 ∧
    ((movePlanCore tracks c tok dir p).moved = true ↔
      (movePlanCore tracks c tok dir p).toIndex ≠ (movePlanCore tracks c tok dir p).fromIndex) ∧
    ((match dir with
        | .up => ∀ j, c - min p c ≤ j → j < c →
            safe_str ((tracks.getD j default).setVideoId) ≠ ""
        | .down => ∀ j, c < j → j ≤ c + min p (tracks.length - 1 - c) →
            safe_str ((tracks.getD j default).setVideoId) ≠ "") →
      (movePlanCore tracks c tok dir p).calls.length =
        (match dir with
          | .up => min p c
          | .down => min p (tracks.length - 1 - c)) ∧
      (movePlanCore tracks c tok dir p).toIndex =
        (match dir with
          | .up => c - min p c
          | .down => c + min p (tracks.length - 1 - c))) := by
  cases dir with
  | up =>
    by_cases hz : min p c = 0
    · unfold movePlanCore
      rw [if_pos hz]
      refine ⟨rfl, by simp; omega, by simp, ?_⟩
      intro _
      refine ⟨by simp [hz], by simp; omega⟩
    · unfold movePlanCore
      rw [if_neg hz]
      have hb := moveLoopUp_le tok (min p c) tracks c
      refine ⟨rfl, by simp; omega, by simp [bne_iff_ne], ?_⟩
      intro htrav
      have hs := moveLoopUp_spec tok (min p c) tracks c
        (Nat.min_le_right _ _) hc htrav
      exact ⟨by simp [hs.2], by simp [hs.1]⟩
  | down =>
    by_cases hz : min p (tracks.length - 1 - c) = 0
    · unfold movePlanCore
      rw [if_pos hz]
      refine ⟨rfl, by simp; omega, by simp, ?_⟩
      intro _
      refine ⟨by simp [hz], by simp; omega⟩
    · unfold movePlanCore
      rw [if_neg hz]
      have hmr := Nat.min_le_right p (tracks.length - 1 - c)
      have hcb : c + min p (tracks.length - 1 - c) < tracks.length := by omega
      have hb := moveLoopDown_le tok (min p (tracks.length - 1 - c)) tracks c
      refine ⟨rfl, by simp; omega, by simp [bne_iff_ne], ?_⟩
      intro htrav
      have hs := moveLoopDown_spec tok (min p (tracks.length - 1 - c)) tracks c hcb htrav
      exact ⟨by simp [hs.2], by simp [hs.1]⟩

/-- Witness for C3: a four-row snapshot with tokens a..d, target at index
1, moving up one step: fromIndex 1, toIndex 0 within bounds, moved true,
and (the traversed predecessor at index 0 carrying a token) exactly one
reorder call landing at index 0. -/
theorem c3_relative_move_witness :
    (movePlanCore
        [{ setVideoId := "a" }, { setVideoId := "b" }, { setVideoId := "c" },
         { setVideoId := "d" }] 1 "b" .up 1).fromIndex = 1 ∧
    (movePlanCore
        [{ setVideoId := "a" }, { setVideoId := "b" }, { setVideoId := "c" },
         { setVideoId := "d" }] 1 "b" .up 1).toIndex ≤ 3 ∧
    ((movePlanCore
        [{ setVideoId := "a" }, { setVideoId := "b" }, { setVideoId := "c" },
         { setVideoId := "d" }] 1 "b" .up 1).moved = true ↔
      (movePlanCore
        [{ setVideoId := "a" }, { setVideoId := "b" }, { setVideoId := "c" },
         { setVideoId := "d" }] 1 "b" .up 1).toIndex ≠
      (movePlanCore
        [{ setVideoId := "a" }, { setVideoId := "b" }, { setVideoId := "c" },
         { setVideoId := "d" }] 1 "b" .up 1).fromIndex) ∧
    (movePlanCore
        [{ setVideoId := "a" }, { setVideoId := "b" }, { setVideoId := "c" },
         { setVideoId := "d" }] 1 "b" .up 1).calls.length = 1 ∧
    (movePlanCore
        [{ setVideoId := "a" }, { setVideoId := "b" }, { setVideoId := "c" },
         { setVideoId := "d" }] 1 "b" .up 1).toIndex = 0 := by
  have h := c3_relative_move
    [{ setVideoId := "a" }, { setVideoId := "b" }, { setVideoId := "c" },
     { setVideoId := "d" }] "b" 1 1 .up (by decide) (by decide) (by decide)
  have h4 := h.2.2.2 (by
    intro j hj1 hj2
    have hj : j = 0 := by omega
    subst hj
    decide)
  exact ⟨h.1, h.2.1, h.2.2.1, h4.1, h4.2⟩

end YtMusic

namespace YtMusic

/-- The running best of the Python `max` fold is the seed or a list
element. -/
theorem foldl_max_mem (f : SearchResult → Nat) :
    ∀ (xs : List SearchResult) (b : SearchResult),
      xs.foldl (fun best y => if f best < f y then y else best) b = b ∨
      xs.foldl (fun best y => if f best < f y then y else best) b ∈ xs := by
  intro xs
  induction xs with
  | nil => intro b; left; rfl
  | cons x xs ih =>
    intro b
    simp only [List.foldl_cons]
    rcases ih (if f b < f x then x else b) with h | h
    · by_cases hc : f b < f x
      · right
        rw [h, if_pos hc]
        exact List.mem_cons_self _ _
      · left
        rw [h, if_neg hc]
    · right
      exact List.mem_cons_of_mem _ h

/-- A selected maximum is a member of the candidate list. -/
theorem maxByFirst_mem {f : SearchResult → Nat} {l : List SearchResult}
    {x : SearchResult} (h : maxByFirst f l = some x) : x ∈ l := by
  cases l with
  | nil => simp [maxByFirst] at h
  | cons a as =>
    simp only [maxByFirst, Option.some_inj] at h
    rcases foldl_max_mem f as a with h2 | h2
    · rw [h2] at h
      rw [← h]
      exact List.mem_cons_self _ _
    · rw [← h]
      exact List.mem_cons_of_mem _ h2

/-- C4: against the target (title Bohemian Rhapsody, artist Queen, no
album), candidate A (exact title, exact artist, usable id) scores
8+5+2 = 15, candidate B (title with a Remastered suffix) scores
5+5+2 = 12, and the selector returns A. -/
theorem c4_scoring_example :
    score_search_result
        { title := "Bohemian Rhapsody", artists := ["Queen"], videoId := "abc" }
        "Bohemian Rhapsody" "Queen" = 15 ∧
    score_search_result
        { title := "Bohemian Rhapsody (Remastered)", artists := ["Queen"], videoId := "def" }
        "Bohemian Rhapsody" "Queen" = 12 ∧
    pick_best_match
        [{ title := "Bohemian Rhapsody", artists := ["Queen"], videoId := "abc" },
         { title := "Bohemian Rhapsody (Remastered)", artists := ["Queen"], videoId := "def" }]
        "Bohemian Rhapsody" "Queen" "" true =
      some { title := "Bohemian Rhapsody", artists := ["Queen"], videoId := "abc" } := by
  refine ⟨by decide, by decide, by decide⟩

/-- C5: with a non-empty target artist, when no identifier-bearing
candidate has a positive artist match level, selection requiring an artist
match returns none regardless of titles, while selection without the
requirement falls back to the unfiltered identifier-bearing candidates;
when some identifier-bearing candidate has a positive level, both flag
values select among the positively-matching candidates (and coincide). -/
theorem c5_artist_gate (results : List SearchResult) (title artist album : String)
    (h : artist ≠ "") :
    ((∀ r ∈ results.filter (fun r => safe_str r.videoId ≠ ""),
        artist_match_level r artist = 0) →
      pick_best_match results title artist album true = none ∧
      (∀ x, pick_best_match results title artist album false = some x →
        x ∈ results.filter (fun r => safe_str r.videoId ≠ ""))) ∧
    ((∃ r ∈ results.filter (fun r => safe_str r.videoId ≠ ""),
        0 < artist_match_level r artist) →
      pick_best_match results title artist album true =
        pick_best_match results title artist album false ∧
      (∀ x, pick_best_match results title artist album true = some x →
        x ∈ results.filter (fun r => safe_str r.videoId ≠ "") ∧
          0 < artist_match_level x artist)) := by
  constructor
  · intro hall
    have hfil : (results.filter (fun r => safe_str r.videoId ≠ "")).filter
        (fun r => 0 < artist_match_level r artist) = [] := by
      rw [List.filter_eq_nil_iff]
      intro a ha
      simp [hall a ha]
    by_cases hv : (results.filter (fun r => safe_str r.videoId ≠ "")).isEmpty = true
    · constructor
      · unfold pick_best_match
        rw [if_pos hv]
      · intro x hx
        unfold pick_best_match at hx
        rw [if_pos hv] at hx
        exact absurd hx (by simp)
    · constructor
      · unfold pick_best_match
        rw [if_neg hv, if_pos h,
          if_neg (show ¬((!((results.filter (fun r => safe_str r.videoId ≠ "")).filter
            (fun r => 0 < artist_match_level r artist)).isEmpty) = true) by
              rw [hfil]; decide)]
        rfl
      · intro x hx
        unfold pick_best_match at hx
        rw [if_neg hv, if_pos h,
          if_neg (show ¬((!((results.filter (fun r => safe_str r.videoId ≠ "")).filter
            (fun r => 0 < artist_match_level r artist)).isEmpty) = true) by
              rw [hfil]; decide),
          if_neg (by decide : ¬(false = true))] at hx
        exact maxByFirst_mem hx
  · intro hex
    obtain ⟨r, hr, hrlvl⟩ := hex
    have hv : ¬(results.filter (fun r => safe_str r.videoId ≠ "")).isEmpty = true := by
      intro hcon
      rw [List.isEmpty_iff] at hcon
      rw [hcon] at hr
      exact absurd hr (by simp)
    have hfil2 : ((results.filter (fun r => safe_str r.videoId ≠ "")).filter
        (fun r => 0 < artist_match_level r artist)).isEmpty = false := by
      cases hb : ((results.filter (fun r => safe_str r.videoId ≠ "")).filter
          (fun r => 0 < artist_match_level r artist)).isEmpty with
      | false => rfl
      | true =>
        rw [List.isEmpty_iff, List.filter_eq_nil_iff] at hb
        exact absurd (by simpa using hrlvl) (hb r hr)
    have hcond : (!((results.filter (fun r => safe_str r.videoId ≠ "")).filter
        (fun r => 0 < artist_match_level r artist)).isEmpty) = true := by
      rw [hfil2]; rfl
    constructor
    · unfold pick_best_match
      rw [if_neg hv, if_pos h, if_pos hcond, if_neg hv, if_pos h, if_pos hcond]
    · intro x hx
      unfold pick_best_match at hx
      rw [if_neg hv, if_pos h, if_pos hcond] at hx
      have hmem := maxByFirst_mem hx
      have hmem2 := List.mem_filter.mp hmem
      exact ⟨hmem2.1, by simpa using hmem2.2⟩

/-- Witness for C5: a single candidate with a usable identifier whose
artist does not match Queen at any level is rejected when an artist match
is required. -/
theorem c5_artist_gate_witness :
    pick_best_match
        [{ title := "Bohemian Rhapsody", artists := ["Someone Else"], videoId := "v1" }]
        "Bohemian Rhapsody" "Queen" "" true = none :=
  ((c5_artist_gate
      [{ title := "Bohemian Rhapsody", artists := ["Someone Else"], videoId := "v1" }]
      "Bohemian Rhapsody" "Queen" "" (by decide)).1 (by decide)).1

end YtMusic

namespace YtMusic

/-- C6: normalize is idempotent for every string, and the case- and
punctuation-insensitivity example holds: normalizing a punctuated
mixed-case title equals normalizing its plain lower-case form. -/
theorem c6_normalize_idempotent :
    (∀ s : String, normalize (normalize s) = normalize s) ∧
    normalize "Bohemian-Rhapsody!!" = normalize "bohemian rhapsody" :=
  ⟨normalize_idem, by decide⟩

/-- Counterexample to C7 as stated: a one-row snapshot in which the song
reference matches nothing (the row cannot be located) still yields a
successful no-op response, not the claimed not-found error. -/
theorem c7_counterexample :
    locate_playlist_song_index [{ videoId := "w", setVideoId := "s1" }]
      ⟨"sX", ""⟩ = none ∧
    handle_move_playlist_song (.dict (.list [{ videoId := "w", setVideoId := "s1" }]))
      ⟨"sX", ""⟩ .up 1 = .ok ⟨false, 0, 0, []⟩ := by
  refine ⟨by decide, by rfl⟩

/-- C7 (amended): when the snapshot holds at least two rows, an
unlocatable song reference fails with the playlist_song_not_found error;
when it holds fewer than two rows, the handler returns a successful no-op
(moved false, fromIndex 0, toIndex 0) without attempting to locate the
row. -/
theorem c7_amended (tracks : List Track) (song_ref : SongRef) (dir : Direction)
    (positions : Nat) :
    (2 ≤ tracks.length → locate_playlist_song_index tracks song_ref = none →
      handle_move_playlist_song (.dict (.list tracks)) song_ref dir positions =
        .error ⟨"Could not find selected song in playlist.",
          "playlist_song_not_found", 404⟩) ∧
    (tracks.length < 2 →
      handle_move_playlist_song (.dict (.list tracks)) song_ref dir positions =
        .ok ⟨false, 0, 0, []⟩) := by
  constructor
  · intro h2 hloc
    unfold handle_move_playlist_song
    simp only [snapshotTracks]
    rw [if_neg (by omega), hloc]
  · intro h2
    unfold handle_move_playlist_song
    simp only [snapshotTracks]
    rw [if_pos h2]

/-- Witness for C7 (amended): a two-row snapshot with an unmatched
reference produces the not-found error. -/
theorem c7_amended_witness :
    handle_move_playlist_song
      (.dict (.list [{ videoId := "w", setVideoId := "s1" },
        { videoId := "x", setVideoId := "s2" }])) ⟨"sX", ""⟩ .up 1 =
      .error ⟨"Could not find selected song in playlist.",
        "playlist_song_not_found", 404⟩ :=
  (c7_amended [{ videoId := "w", setVideoId := "s1" },
    { videoId := "x", setVideoId := "s2" }] ⟨"sX", ""⟩ .up 1).1
    (by decide) (by decide)

/-- Counterexample to C8 as stated: a successful payload whose tracks
field is not a list is answered by the direct read with a successful
empty response, and by the pre-move read with a successful no-op, never
with the claimed fatal load error. -/
theorem c8_counterexample :
    handle_playlist_songs (.dict .notList) = .ok ⟨[], []⟩ ∧
    handle_move_playlist_song (.dict .notList) ⟨"sX", ""⟩ .up 1 =
      .ok ⟨false, 0, 0, []⟩ := by
  refine ⟨by rfl, by rfl⟩

/-- C8 (amended): a successful remote payload whose tracks field is
missing or not a list is treated as an empty snapshot everywhere: the
direct song read returns a successful response with no songs, and the
pre-move read returns a successful no-op; only transport exceptions take
the fatal-error path. -/
theorem c8_amended :
    (∀ payload : SnapshotPayload, snapshotTracks payload = .notList →
      handle_playlist_songs payload = .ok ⟨[], []⟩) ∧
    (∀ (payload : SnapshotPayload) (song_ref : SongRef) (dir : Direction)
        (positions : Nat), snapshotTracks payload = .notList →
      handle_move_playlist_song payload song_ref dir positions =
        .ok ⟨false, 0, 0, []⟩) ∧
    handle_playlist_songs .notDict = .ok ⟨[], []⟩ := by
  refine ⟨?_, ?_, by rfl⟩
  · intro payload hp
    unfold handle_playlist_songs
    rw [hp]
    rfl
  · intro payload song_ref dir positions hp
    unfold handle_move_playlist_song
    rw [hp]

/-- Witness for C8 (amended): the move handler applied to a dict payload
with a non-list tracks field. -/
theorem c8_amended_witness :
    handle_move_playlist_song (.dict .notList) ⟨"y", "z"⟩ .down 2 =
      .ok ⟨false, 0, 0, []⟩ :=
  c8_amended.2.1 (.dict .notList) ⟨"y", "z"⟩ .down 2 rfl

end YtMusic

namespace YtMusic

/-- C9: in a two-song batch where song A resolves and is appended and song
B has an empty title, the batch result carries A (with its resolved
identifier) as the only migrated entry and records B as the only failed
entry with songKey song-1 and error message Song title is required.; the
failure of B does not abort the batch. -/
theorem c9_batch_partial_failure :
    migrate_songs exOracleC9
      [.obj "" "Song A" "Artist" "" none, .obj "" "" "Queen" "" none] false =
      ⟨[⟨"song-0", "Song A", "Artist", "", none, "vidA", "Song A", "Artist"⟩],
       [⟨"song-1", "", "Queen", "", "Song title is required."⟩]⟩ := by decide

/-- Resolution assigns each input song exactly one outcome. -/
theorem resolve_all_length (o : Oracle) :
    ∀ (songs : List SongInput) (index k : Nat),
      (resolve_all o songs index k).1.1.length +
        (resolve_all o songs index k).1.2.length = songs.length := by
  intro songs
  induction songs with
  | nil => intro index k; rfl
  | cons s rest ih =>
    intro index k
    cases hout : (resolve_song o index s k).1 with
    | pendingOut p =>
      simp only [resolve_all, hout, List.length_cons]
      have := ih (index + 1) (resolve_song o index s k).2
      omega
    | failedOut f =>
      simp only [resolve_all, hout, List.length_cons]
      have := ih (index + 1) (resolve_song o index s k).2
      omega

/-- The position-preserving loop assigns each pending song exactly one
outcome. -/
theorem preserve_all_length (o : Oracle) :
    ∀ (pending : List PendingSong) (k : Nat),
      (preserve_all o pending k).1.1.length +
        (preserve_all o pending k).1.2.length = pending.length := by
  intro pending
  induction pending with
  | nil => intro k; rfl
  | cons s rest ih =>
    intro k
    cases hout : (preserve_one o s k).1 with
    | none =>
      simp only [preserve_all, hout, List.length_cons]
      have := ih (preserve_one o s k).2
      omega
    | some f =>
      simp only [preserve_all, hout, List.length_cons]
      have := ih (preserve_one o s k).2
      omega

/-- The bulk append assigns each pending song exactly one outcome. -/
theorem append_only_length (o : Oracle) (pending : List PendingSong) (k : Nat) :
    (append_only_phase o pending k).1.1.length +
      (append_only_phase o pending k).1.2.length = pending.length := by
  unfold append_only_phase
  cases o.addPlaylistItems k (pending.map (·.videoId)) with
  | ok _ => simp
  | error e => simp

/-- C10: in both addition modes and for every oracle behavior (including a
failing bulk append and a raising best-effort reposition), every input
song contributes exactly one entry to exactly one of the migrated and
failed arrays: the two lengths always sum to the input length. -/
theorem c10_each_song_one_outcome (o : Oracle) (songs : List SongInput)
    (preservePosition : Bool) :
    (migrate_songs o songs preservePosition).migrated.length +
      (migrate_songs o songs preservePosition).failed.length = songs.length := by
  have h1 := resolve_all_length o songs 0 0
  unfold migrate_songs
  by_cases hp : (resolve_all o songs 0 0).1.1.isEmpty = true
  · rw [List.isEmpty_iff] at hp
    simp only [hp, List.isEmpty_nil, if_pos]
    simp only [List.length_append, List.length_nil]
    rw [hp] at h1
    simp at h1
    simp [h1]
  · rw [Bool.not_eq_true] at hp
    cases preservePosition with
    | false =>
      have h2 := append_only_length o (resolve_all o songs 0 0).1.1
        (resolve_all o songs 0 0).2
      simp [hp]
      omega
    | true =>
      have h2 := preserve_all_length o (resolve_all o songs 0 0).1.1
        (resolve_all o songs 0 0).2
      simp [hp]
      omega

end YtMusic
